import Mathlib

/-!
Verification of the natsuki agent-coding-loop core against its design
document.  The definitions below are a shallow embedding of the
TypeScript sources: the orchestrator state machine
(`src/electron/orchestrator.ts` and its variant `src/unnamed/part_006`),
the verify/snapshot collaborators (`src/electron/snapshot-manager.ts`),
the session manager's idle detection and log ring buffer
(`src/unnamed/part_000`, `src/unnamed/part_001`), and the tiered
reviewer (`src/electron/llm-service.ts`).  External effects (child
processes, the network, the file system, timers) are modelled as
explicit oracle inputs; JavaScript `undefined` becomes `Option`.
-/

namespace Natsuki

/-! ## Data model (src/src/types.ts, src/unnamed/part_004, llm-service.ts) -/

/-- `JobStatus` from `src/unnamed/part_004` (job-manager). -/
inductive JobStatus
  | idle
  | running
  | verifying
  | snapshotting
  | reviewing
  | completed
  | failed
  | waiting_approval
  | fixing
deriving DecidableEq, Repr

/-- `Decision` from `src/electron/llm-service.ts`. -/
inductive Decision
  | BLOCK
  | IMPROVE
  | APPROVE
  | EXCELLENT
deriving DecidableEq, Repr

/-- The string each `Decision` value is in the TypeScript source
(string-literal union type). -/
def Decision.str : Decision → String
  | .BLOCK => "BLOCK"
  | .IMPROVE => "IMPROVE"
  | .APPROVE => "APPROVE"
  | .EXCELLENT => "EXCELLENT"

/-- `AchievedLevel` from `src/electron/llm-service.ts`. -/
inductive AchievedLevel
  | none
  | minimum
  | middle
  | maximum
deriving DecidableEq, Repr

/-- The string each `AchievedLevel` value is in the source. -/
def AchievedLevel.str : AchievedLevel → String
  | .none => "none"
  | .minimum => "minimum"
  | .middle => "middle"
  | .maximum => "maximum"

/-- `Severity` from `src/electron/llm-service.ts`. -/
inductive Severity
  | critical
  | major
  | minor
deriving DecidableEq, Repr

/-- The string each `Severity` value is in the source. -/
def Severity.str : Severity → String
  | .critical => "critical"
  | .major => "major"
  | .minor => "minor"

/-- `RiskLevel` from `src/electron/llm-service.ts`. -/
inductive RiskLevel
  | low
  | medium
  | high
deriving DecidableEq, Repr

/-- `ReviewIssue` from `src/electron/llm-service.ts`. -/
structure ReviewIssue where
  severity : Severity
  title : String
  evidence : String
  suggestion : String
deriving DecidableEq, Repr

/-- The `missing` component of `ReviewResult`. -/
structure MissingLists where
  minimum : List String
  middle : List String
  maximum : List String
deriving DecidableEq, Repr

/-- The `risk` component of `ReviewResult`. -/
structure RiskRating where
  security : RiskLevel
  correctness : RiskLevel
  maintainability : RiskLevel
deriving DecidableEq, Repr

/-- `ReviewResult` from `src/electron/llm-service.ts`. -/
structure ReviewResult where
  decision : Decision
  achievedLevel : AchievedLevel
  summary : String
  missing : MissingLists
  issues : List ReviewIssue
  risk : RiskRating
deriving DecidableEq, Repr

/-- Result of `runVerify` (src/electron/snapshot-manager.ts). -/
structure VerifyRes where
  success : Bool
  exitCode : Int
  stdoutTail : String
  stderrTail : String
  error : Option String
deriving DecidableEq, Repr

/-- Result of `createSnapshot` (src/electron/snapshot-manager.ts); its
`summary` payload is never read by the orchestrator and is omitted. -/
structure SnapRes where
  success : Bool
  snapshotId : Option String
  error : Option String
deriving DecidableEq, Repr

/-- Result of `runReview` (src/electron/llm-service.ts). -/
structure ReviewCallRes where
  success : Bool
  result : Option ReviewResult
  error : Option String
deriving DecidableEq, Repr

/-- Payload of a job-history entry: the orchestrator records the raw
verify result and the raw review result. -/
inductive HistPayload
  | verify (r : VerifyRes)
  | review (r : ReviewResult)
deriving DecidableEq, Repr

/-- A `history` entry of a `Job` (src/unnamed/part_004). -/
structure HistEntry where
  timestamp : Nat
  action : String
  result : HistPayload
deriving DecidableEq, Repr

/-- `Job` from `src/unnamed/part_004` (job-manager).  Optional fields of
the TypeScript interface are `Option`s. -/
structure Job where
  id : String
  description : String
  status : JobStatus
  createdAt : Nat
  workspace : Option String
  history : Option (List HistEntry)
  logSummary : Option String
  latestSnapshotId : Option String
  autoFixCount : Option Nat
  reviewResult : Option ReviewResult
deriving DecidableEq, Repr

/-- JavaScript string coercion of a possibly-`undefined` string, as in
`'Snapshot failed: ' + snapRes.error`: `undefined` prints "undefined". -/
def jsShowOptStr : Option String → String
  | some s => s
  | Option.none => "undefined"

/-- JavaScript truthiness of a possibly-`undefined` string (`!s` in the
source): `undefined` and the empty string are falsy. -/
def jsTruthyStr : Option String → Bool
  | some s => s ≠ ""
  | Option.none => false

/-! ## Review decision gate (src/electron/orchestrator.ts) -/

/-- `MAX_AUTO_FIXES` from `src/electron/orchestrator.ts` line 18. -/
def MAX_AUTO_FIXES : Nat := 2

/-- What one call of `handleReviewDecision` does: the updated job
record, the raw strings written to the PTY session, and whether the
idle callback was re-registered. -/
structure DecisionOutcome where
  job : Job
  ptyWrites : List String
  idleCallbackRegistered : Bool
deriving DecidableEq, Repr

namespace Orch

/-- `issuesText` built inside `handleReviewDecision`
(src/electron/orchestrator.ts line 249):
`result.issues.map(i => `- [${i.severity}] ${i.title}: ${i.evidence || ''}`).join('\n')`.
On a (string-typed) `evidence` field, `e || ''` is the identity. -/
def issuesText (issues : List ReviewIssue) : String :=
  String.intercalate "\n"
    (issues.map (fun i => "- [" ++ i.severity.str ++ "] " ++ i.title ++ ": " ++ i.evidence))

/-- The fix prompt composed in `handleReviewDecision`
(src/electron/orchestrator.ts line 250). -/
def fixPrompt (result : ReviewResult) : String :=
  "Review Feedback (Level " ++ result.achievedLevel.str ++ "):\n"
    ++ issuesText result.issues
    ++ "\n\nPlease fix these issues to reach the next level."

/-- `Orchestrator.handleReviewDecision` (src/electron/orchestrator.ts
lines 235-265), for a job present in the job manager.  Each
`updateJobStatus(jobId, status, updates)` call becomes the
corresponding record update (job-manager's `updateJob` is an
`Object.assign` of the partial update). -/
def handleReviewDecision (job : Job) (result : ReviewResult) : DecisionOutcome :=
  if result.decision = .APPROVE ∨ result.decision = .EXCELLENT then
    { job := { job with status := .completed }
      ptyWrites := []
      idleCallbackRegistered := false }
  else if result.decision = .IMPROVE then
    if job.autoFixCount.getD 0 < MAX_AUTO_FIXES then
      let newCount := job.autoFixCount.getD 0 + 1
      { job := { job with status := .fixing, autoFixCount := some newCount }
        ptyWrites := [fixPrompt result ++ "\r"]
        idleCallbackRegistered := true }
    else
      { job := { job with status := .failed, description := "Max auto-fix limit reached" }
        ptyWrites := []
        idleCallbackRegistered := false }
  else
    { job := { job with status := .failed, description := "Review blocked: " ++ result.summary }
      ptyWrites := []
      idleCallbackRegistered := false }

end Orch

namespace Part006

/-- `issuesText` built inside `handleReviewDecision` of the variant
orchestrator (src/unnamed/part_006 line 193). -/
def issuesText (issues : List ReviewIssue) : String :=
  String.intercalate "\n"
    (issues.map (fun i => "- [" ++ i.severity.str ++ "] " ++ i.title ++ ": " ++ i.evidence))

/-- The fix prompt composed in `handleReviewDecision` of the variant
orchestrator (src/unnamed/part_006 line 194). -/
def fixPrompt (result : ReviewResult) : String :=
  "Review Feedback (Level " ++ result.achievedLevel.str ++ "):\n"
    ++ issuesText result.issues
    ++ "\n\nPlease fix these issues to reach the next level."

/-- `Orchestrator.handleReviewDecision` of the variant orchestrator
(src/unnamed/part_006 lines 179-209). -/
def handleReviewDecision (job : Job) (result : ReviewResult) : DecisionOutcome :=
  if result.decision = .APPROVE ∨ result.decision = .EXCELLENT then
    { job := { job with status := .completed }
      ptyWrites := []
      idleCallbackRegistered := false }
  else if result.decision = .IMPROVE then
    if job.autoFixCount.getD 0 < MAX_AUTO_FIXES then
      let newCount := job.autoFixCount.getD 0 + 1
      { job := { job with status := .fixing, autoFixCount := some newCount }
        ptyWrites := [fixPrompt result ++ "\r"]
        idleCallbackRegistered := true }
    else
      { job := { job with status := .failed, description := "Max auto-fix limit reached" }
        ptyWrites := []
        idleCallbackRegistered := false }
  else
    { job := { job with status := .failed, description := "Review blocked: " ++ result.summary }
      ptyWrites := []
      idleCallbackRegistered := false }

end Part006

/-! ## Bounded phases and the advancement loop (src/electron/orchestrator.ts) -/

/-- `TIMEOUTS.VERIFY` (10 min, in ms). -/
def TIMEOUT_VERIFY : Nat := 10 * 60 * 1000

/-- `TIMEOUTS.SNAPSHOT` (5 min, in ms). -/
def TIMEOUT_SNAPSHOT : Nat := 5 * 60 * 1000

/-- `TIMEOUTS.REVIEW` (3 min, in ms). -/
def TIMEOUT_REVIEW : Nat := 3 * 60 * 1000

/-- Whether a phase's underlying promise settles before the race's timer:
the oracle input to `withTimeout`. -/
inductive Timed (α : Type)
  | completes (v : α)
  | timesOut
deriving DecidableEq, Repr

/-- `withTimeout` (src/electron/orchestrator.ts lines 26-31):
`Promise.race` of the operation against a timer that rejects with
`` `${label} timed out after ${ms}ms` ``. -/
def withTimeout {α : Type} (t : Timed α) (ms : Nat) (label : String) : Except String α :=
  match t with
  | .completes v => .ok v
  | .timesOut => .error (label ++ " timed out after " ++ toString ms ++ "ms")

/-- The oracle inputs consumed by one `advanceLoop` invocation: the
clock value used for history timestamps, the three bounded phase
outcomes, and whether any reviewer API key (anthropic, gemini or
openai) is configured. -/
structure AdvanceEnv where
  now : Nat
  verify : Timed VerifyRes
  snap : Timed SnapRes
  hasKey : Bool
  review : Timed ReviewCallRes
deriving DecidableEq, Repr

/-- What one `advanceLoop` invocation did: the final job record, the
statuses passed to `updateJobStatus` in order, the raw strings written
to the PTY, and whether the idle callback ended up re-registered. -/
structure AdvanceOutcome where
  job : Job
  statusTrace : List JobStatus
  ptyWrites : List String
  idleCallbackRegistered : Bool
deriving DecidableEq, Repr

/-- `job.history.push(...)` guarded by `if (job.history)`. -/
def pushHistory (job : Job) (e : HistEntry) : Job :=
  match job.history with
  | some h => { job with history := some (h ++ [e]) }
  | Option.none => job

namespace Orch

/-- `Orchestrator.advanceLoop` (src/electron/orchestrator.ts lines
155-232), for a job present in the job manager.  The `try` block's only
rejection sources are the `withTimeout` races (`runVerify`,
`createSnapshot` and `runReview` all resolve); the `catch` performs
`updateJobStatus(jobId, 'failed')` with no further field updates.
The snapshot guard is `if (!snapRes.success || !snapRes.snapshotId)`
(JavaScript falsiness of the id), and the review guard is
`if (reviewRes.success && reviewRes.result)`. -/
def advanceLoop (job : Job) (env : AdvanceEnv) : AdvanceOutcome :=
  if job.status = .running ∨ job.status = .fixing then
    let j1 : Job := { job with status := .verifying }
    match withTimeout env.verify TIMEOUT_VERIFY "Verification" with
    | .error _ =>
        { job := { j1 with status := .failed }
          statusTrace := [.verifying, .failed]
          ptyWrites := []
          idleCallbackRegistered := false }
    | .ok vres =>
        let j2 := pushHistory j1 { timestamp := env.now, action := "verify", result := .verify vres }
        let j3 : Job := { j2 with status := .snapshotting }
        match withTimeout env.snap TIMEOUT_SNAPSHOT "Snapshot" with
        | .error _ =>
            { job := { j3 with status := .failed }
              statusTrace := [.verifying, .verifying, .snapshotting, .failed]
              ptyWrites := []
              idleCallbackRegistered := false }
        | .ok sres =>
            if !sres.success || !jsTruthyStr sres.snapshotId then
              let jf : Job :=
                { j3 with status := .failed
                          description := "Snapshot failed: " ++ jsShowOptStr sres.error }
              { job := jf
                statusTrace := [.verifying, .verifying, .snapshotting, .failed]
                ptyWrites := []
                idleCallbackRegistered := false }
            else
              let j4 : Job := { j3 with latestSnapshotId := sres.snapshotId }
              if env.hasKey then
                let j5 : Job := { j4 with status := .reviewing }
                match withTimeout env.review TIMEOUT_REVIEW "Review" with
                | .error _ =>
                    { job := { j5 with status := .failed }
                      statusTrace := [.verifying, .verifying, .snapshotting, .snapshotting,
                                      .reviewing, .failed]
                      ptyWrites := []
                      idleCallbackRegistered := false }
                | .ok rres =>
                    match rres.success, rres.result with
                    | true, some r =>
                        let j6 := pushHistory j5
                          { timestamp := env.now, action := "review", result := .review r }
                        let j7 : Job := { j6 with reviewResult := some r }
                        let d := handleReviewDecision j7 r
                        { job := d.job
                          statusTrace := [.verifying, .verifying, .snapshotting, .snapshotting,
                                          .reviewing, .reviewing, d.job.status]
                          ptyWrites := d.ptyWrites
                          idleCallbackRegistered := d.idleCallbackRegistered }
                    | _, _ =>
                        let jf : Job :=
                          { j5 with status := .failed
                                    description := "Review failed: " ++ jsShowOptStr rres.error }
                        { job := jf
                          statusTrace := [.verifying, .verifying, .snapshotting, .snapshotting,
                                          .reviewing, .failed]
                          ptyWrites := []
                          idleCallbackRegistered := false }
              else
                { job := { j4 with status := .waiting_approval }
                  statusTrace := [.verifying, .verifying, .snapshotting, .snapshotting,
                                  .waiting_approval]
                  ptyWrites := []
                  idleCallbackRegistered := false }
  else
    { job := job, statusTrace := [], ptyWrites := [], idleCallbackRegistered := false }

/-- `Orchestrator.startJob` (src/electron/orchestrator.ts lines
93-139), for a job present in the job manager: reset `autoFixCount` to
0, record the workspace, move to `running`; fail if the PTY manager
has no active session. -/
def startJob (job : Job) (cwd : String) (sessionAvailable : Bool) : Job :=
  let j1 : Job := { job with status := .running, autoFixCount := some 0, workspace := some cwd }
  if sessionAvailable then j1
  else { j1 with status := .failed
                 description := "No active PTY session. Please open a workspace." }

/-- `Orchestrator.handlePTYExit` (src/electron/orchestrator.ts lines
50-68) restricted to one tracked job: a `running` or `fixing` job is
failed on any exit code. -/
def handlePTYExit (job : Job) (exitCode : Int) : Job :=
  if job.status = .running ∨ job.status = .fixing then
    if exitCode ≠ 0 then
      { job with status := .failed, description := "Process exited with code " ++ toString exitCode }
    else
      { job with status := .failed, description := "Process exited (Code " ++ toString exitCode ++ ")" }
  else job

/-- The orchestrator entry points that can touch a job after
`startJob`: an idle-triggered `advanceLoop` (with its phase oracles), a
PTY exit, or a user action (`handleUserAction` is a no-op in the
source). -/
inductive OrchEvent
  | advance (env : AdvanceEnv)
  | ptyExit (exitCode : Int)
  | userAction

/-- One orchestrator operation applied to a job record. -/
def orchStep (job : Job) (e : OrchEvent) : Job :=
  match e with
  | .advance env => (advanceLoop job env).job
  | .ptyExit code => handlePTYExit job code
  | .userAction => job

/-- A sequence of orchestrator operations applied in order. -/
def runEvents (job : Job) (events : List OrchEvent) : Job :=
  events.foldl orchStep job

end Orch

/-! ## Idle detection (src/unnamed/part_001 lines 9-30, src/unnamed/part_000 lines 23-46) -/

/-- `IDLE_THRESHOLD_MS` (5 s of no output = idle). -/
def IDLE_THRESHOLD_MS : Nat := 5000

/-- The idle-detection globals of the session manager: the pending
timer (as the absolute time it would fire), whether an idle callback is
registered, and the times at which the callback has been invoked. -/
structure IdleState where
  timerFireAt : Option Nat
  callbackSet : Bool
  fires : List Nat
deriving DecidableEq, Repr

/-- Event-loop bookkeeping: before handling an event at time `now`, a
pending timer whose deadline has passed fires; the timer body invokes
the idle callback once and leaves no timer pending. -/
def fireDue (s : IdleState) (now : Nat) : IdleState :=
  match s.timerFireAt with
  | some f =>
      if f ≤ now then { s with timerFireAt := Option.none, fires := s.fires ++ [f] }
      else s
  | Option.none => s

/-- `resetIdleTimer` (src/unnamed/part_001 lines 14-22): cancel any
pending timer, and schedule a new one for `IDLE_THRESHOLD_MS` from now
if a callback is registered. -/
def resetIdleTimer (s : IdleState) (now : Nat) : IdleState :=
  if s.callbackSet then { s with timerFireAt := some (now + IDLE_THRESHOLD_MS) }
  else { s with timerFireAt := Option.none }

/-- `setIdleCallback` (src/unnamed/part_001 lines 24-30): replace the
callback slot; clearing it also cancels the pending timer. -/
def setIdleCallback (s : IdleState) (cb : Bool) : IdleState :=
  if cb then { s with callbackSet := true }
  else { s with callbackSet := false, timerFireAt := Option.none }

/-- The `onData` handler's idle bookkeeping for one output chunk
arriving at time `t` (src/unnamed/part_001 line 126): any overdue timer
has fired first, then `resetIdleTimer` runs. -/
def onChunk (s : IdleState) (t : Nat) : IdleState :=
  resetIdleTimer (fireDue s t) t

/-- A sequence of output chunks at the given (non-decreasing) times. -/
def processChunks (s : IdleState) (ts : List Nat) : IdleState :=
  ts.foldl onChunk s

/-- The manager's initial idle state: no timer, no callback. -/
def idleStart : IdleState :=
  { timerFireAt := Option.none, callbackSet := false, fires := [] }

/-- Chunk times in order, consecutive chunks less than the quiescence
threshold apart. -/
def gapsOk : List Nat → Bool
  | t1 :: t2 :: rest =>
      decide (t1 ≤ t2) && decide (t2 < t1 + IDLE_THRESHOLD_MS) && gapsOk (t2 :: rest)
  | _ => true

/-- The last chunk time of `d :: l`. -/
def lastChunk (d : Nat) : List Nat → Nat
  | [] => d
  | t :: rest => lastChunk t rest

/-- The idle state after a callback is registered and the chunks at
times `t0 :: ts` have been handled. -/
def idleRun (t0 : Nat) (ts : List Nat) : IdleState :=
  processChunks (setIdleCallback idleStart true) (t0 :: ts)

/-! ## Per-session output ring buffer (src/unnamed/part_000 lines 48-62) -/

/-- `MAX_LOG_LINES` from `src/unnamed/part_000` line 50. -/
def MAX_LOG_LINES : Nat := 50

/-- `text.split(/\r?\n/)`: a line break is a bare newline or a carriage
return followed by a newline; a lone carriage return stays in its line. -/
def splitCRLF : List Char → List (List Char)
  | [] => [[]]
  | '\r' :: '\n' :: rest => [] :: splitCRLF rest
  | '\n' :: rest => [] :: splitCRLF rest
  | c :: rest =>
      match splitCRLF rest with
      | [] => [[c]]
      | l :: ls => (c :: l) :: ls

/-- The lines of one output chunk, as `appendLog` splits them. -/
def splitLines (text : String) : List String :=
  (splitCRLF text.data).map (fun l => String.mk l)

/-- `line.trim().length > 0`: the test a line must pass to be stored. -/
def nonBlank (line : String) : Bool := line.trim.length > 0

/-- `appendLog` (src/unnamed/part_000 lines 52-62): push each non-blank
line of the chunk, then cut back to the last `MAX_LOG_LINES` lines
(`recentLogs.slice(recentLogs.length - MAX_LOG_LINES)`). -/
def appendLog (recentLogs : List String) (text : String) : List String :=
  let logs := recentLogs ++ (splitLines text).filter (fun l => nonBlank l)
  if logs.length > MAX_LOG_LINES then logs.drop (logs.length - MAX_LOG_LINES) else logs

/-- The last `n` elements of a list, in order. -/
def lastN {α : Type} (n : Nat) (l : List α) : List α := l.drop (l.length - n)

/-- The non-blank lines a sequence of chunks contributes, in arrival order. -/
def allKeptLines (chunks : List String) : List String :=
  (chunks.map (fun c => (splitLines c).filter (fun l => nonBlank l))).flatten

/-! ## Verify runner (src/electron/snapshot-manager.ts lines 11-16, 54-71) -/

/-- `VERIFY_PROFILES`: the own (data) entries of the object literal,
the fixed allow-list of verify commands. -/
def VERIFY_PROFILES : List (String × String) :=
  [("lint", "npm run lint"), ("build", "npm run build"),
   ("typecheck", "npm run typecheck"), ("test", "npm test")]

/-- The property names a plain object literal inherits from
`Object.prototype`.  Accessing any of them on `VERIFY_PROFILES` yields
a truthy non-string member: a function, or the prototype object itself
for `__proto__`. -/
def OBJECT_PROTOTYPE_KEYS : List String :=
  ["constructor", "hasOwnProperty", "isPrototypeOf", "propertyIsEnumerable",
   "toLocaleString", "toString", "valueOf", "__proto__",
   "__defineGetter__", "__defineSetter__", "__lookupGetter__", "__lookupSetter__"]

/-- What `VERIFY_PROFILES[completionProfile]` can evaluate to in
JavaScript: an own entry (a non-empty command string, so truthy), a
truthy non-string member inherited from `Object.prototype`, or
`undefined` (falsy). -/
inductive JsMember
  | str (s : String)
  | inheritedMember
  | absent
deriving DecidableEq, Repr

/-- `VERIFY_PROFILES[p]` as JS property access on the object literal:
the own keys first, then the members inherited from `Object.prototype`,
else `undefined`. -/
def lookupProfile (p : String) : JsMember :=
  match (VERIFY_PROFILES.find? (fun kv => kv.fst == p)).map Prod.snd with
  | some cmd => .str cmd
  | Option.none =>
      if OBJECT_PROTOTYPE_KEYS.contains p then .inheritedMember else .absent

/-- What a spawned command produced (`runCommand` resolution value);
an oracle input, since `runVerify` only forwards it. -/
structure CmdOut where
  exitCode : Int
  stdout : String
  stderr : String
deriving DecidableEq, Repr

/-- What one `runVerify` call did: its outcome — the resolution value,
or `.error` for a rejection (the thrown `TypeError`) — and the command
it actually ran, if any. -/
structure VerifyCall where
  outcome : Except String VerifyRes
  executedCommand : Option String
deriving Repr

/-- `s.slice(-n)`: the last `n` characters. -/
def strTail (s : String) (n : Nat) : String := String.mk (s.data.drop (s.data.length - n))

/-- `runVerify` (src/electron/snapshot-manager.ts lines 54-71);
`exec commandStr cwd` abstracts `runCommand(cmd, args, cwd)` on the
allow-listed command string.  The `if (!commandStr)` guard fires only
for `undefined`: a truthy member inherited from `Object.prototype`
passes it, and `commandStr.split(' ')` on that non-string then throws a
`TypeError` at line 62 (the `.error` case; the message stands in for
the engine's TypeError) — still without executing any command. -/
def runVerify (exec : String → String → CmdOut) (cwd : String)
    (completionProfile : String) : VerifyCall :=
  match lookupProfile completionProfile with
  | .absent =>
      { outcome := .ok { success := false, exitCode := -1, stdoutTail := "", stderrTail := ""
                         error := some ("Profile \x27" ++ completionProfile
                           ++ "\x27 not allowed/found.") }
        executedCommand := Option.none }
  | .inheritedMember =>
      { outcome := .error "TypeError: commandStr.split is not a function"
        executedCommand := Option.none }
  | .str commandStr =>
      let out := exec commandStr cwd
      { outcome := .ok { success := out.exitCode == 0, exitCode := out.exitCode
                         stdoutTail := strTail out.stdout 2000
                         stderrTail := strTail out.stderr 2000
                         error := Option.none }
        executedCommand := some commandStr }

/-! ## Tiered reviewer (src/electron/llm-service.ts lines 290-322) -/

/-- What `TieredReviewer.review` produced and whether the tier-2 model
was consulted at all.  `Except.error` models a rejected promise. -/
structure TieredCall where
  result : Except String ReviewResult
  tier2Consulted : Bool

/-- `TieredReviewer.review`: `tier1` is the outcome of the Gemini
(tier 1) call and `tier2` the outcome the Anthropic (tier 2) reviewer
gives for this snapshot (the collaborator is deterministic, so the
retry of tier 2 from the `catch` block returns the same outcome). -/
def tieredReview (tier1 tier2 : Except String ReviewResult) : TieredCall :=
  match tier1 with
  | .ok result1 =>
      if result1.decision = .APPROVE ∨ result1.decision = .EXCELLENT then
        { result := .ok { result1 with summary := "[Tier 1] " ++ result1.summary }
          tier2Consulted := false }
      else
        match tier2 with
        | .ok result2 =>
            { result := .ok { result2 with
                summary := "[Tier 2 (was " ++ result1.decision.str ++ ")] " ++ result2.summary }
              tier2Consulted := true }
        | .error e => { result := .error e, tier2Consulted := true }
  | .error _ => { result := tier2, tier2Consulted := true }

/-! ## Concrete inputs for counterexamples and witnesses -/

/-- A concrete running job, an explicit input for counterexamples and witnesses. -/
def jobEx : Job :=
  { id := "job-1", description := "Test job", status := .running, createdAt := 0,
    workspace := some "/ws", history := some [], logSummary := Option.none,
    latestSnapshotId := Option.none, autoFixCount := some 0, reviewResult := Option.none }

/-- A successful verify result. -/
def vOk : VerifyRes :=
  { success := true, exitCode := 0, stdoutTail := "", stderrTail := "", error := Option.none }

/-- A successful snapshot result with id "S1". -/
def sOk : SnapRes := { success := true, snapshotId := some "S1", error := Option.none }

/-- A failed snapshot result. -/
def sBad : SnapRes :=
  { success := false, snapshotId := Option.none, error := some "not a git repository" }

/-- An advancement round whose Verify phase times out. -/
def envVerifyLate : AdvanceEnv :=
  { now := 0, verify := .timesOut, snap := .completes sOk, hasKey := false, review := .timesOut }

/-- An advancement round with no reviewer key and both phases succeeding. -/
def envNoKey : AdvanceEnv :=
  { now := 0, verify := .completes vOk, snap := .completes sOk, hasKey := false,
    review := .timesOut }

/-- An advancement round whose snapshot fails. -/
def envSnapFail : AdvanceEnv :=
  { now := 0, verify := .completes vOk, snap := .completes sBad, hasKey := true,
    review := .timesOut }

/-- A concrete command oracle: every command exits 0 with no output. -/
def execOk : String → String → CmdOut :=
  fun _ _ => { exitCode := 0, stdout := "", stderr := "" }

/-- A concrete APPROVE review result with summary "ok". -/
def rvApprove : ReviewResult :=
  { decision := .APPROVE, achievedLevel := .middle, summary := "ok"
    missing := { minimum := [], middle := [], maximum := [] }
    issues := []
    risk := { security := .low, correctness := .low, maintainability := .low } }

end Natsuki

namespace Natsuki

/-! ## Auto-fix budget bookkeeping lemmas -/

theorem pushHistory_autoFixCount (j : Job) (e : HistEntry) :
    (pushHistory j e).autoFixCount = j.autoFixCount := by
  unfold pushHistory; split <;> rfl

theorem handleReviewDecision_count_le (job : Job) (r : ReviewResult)
    (h : job.autoFixCount.getD 0 ≤ MAX_AUTO_FIXES) :
    (Orch.handleReviewDecision job r).job.autoFixCount.getD 0 ≤ MAX_AUTO_FIXES := by
  unfold Orch.handleReviewDecision
  split
  · simpa using h
  · split
    · split
      · simp [MAX_AUTO_FIXES] at *; omega
      · simpa using h
    · simpa using h

theorem advanceLoop_count_le (job : Job) (env : AdvanceEnv)
    (h : job.autoFixCount.getD 0 ≤ MAX_AUTO_FIXES) :
    (Orch.advanceLoop job env).job.autoFixCount.getD 0 ≤ MAX_AUTO_FIXES := by
  unfold Orch.advanceLoop
  split
  · split
    · simpa using h
    · split
      · simpa [pushHistory_autoFixCount] using h
      · split
        · simpa [pushHistory_autoFixCount] using h
        · split
          · split
            · simpa [pushHistory_autoFixCount] using h
            · split
              · apply handleReviewDecision_count_le
                simpa [pushHistory_autoFixCount] using h
              · simpa [pushHistory_autoFixCount] using h
          · simpa [pushHistory_autoFixCount] using h
  · simpa using h

theorem orchStep_count_le (job : Job) (e : Orch.OrchEvent)
    (h : job.autoFixCount.getD 0 ≤ MAX_AUTO_FIXES) :
    (Orch.orchStep job e).autoFixCount.getD 0 ≤ MAX_AUTO_FIXES := by
  cases e with
  | advance env => exact advanceLoop_count_le job env h
  | ptyExit code =>
      show (Orch.handlePTYExit job code).autoFixCount.getD 0 ≤ MAX_AUTO_FIXES
      unfold Orch.handlePTYExit
      split
      · split <;> simpa using h
      · simpa using h
  | userAction => exact h

theorem runEvents_count_le (events : List Orch.OrchEvent) (job : Job)
    (h : job.autoFixCount.getD 0 ≤ MAX_AUTO_FIXES) :
    (Orch.runEvents job events).autoFixCount.getD 0 ≤ MAX_AUTO_FIXES := by
  induction events generalizing job with
  | nil => simpa [Orch.runEvents] using h
  | cons e rest ih =>
      have := ih (Orch.orchStep job e) (orchStep_count_le job e h)
      simpa [Orch.runEvents, List.foldl_cons] using this

theorem startJob_count (job : Job) (cwd : String) (avail : Bool) :
    (Orch.startJob job cwd avail).autoFixCount = some 0 := by
  unfold Orch.startJob; split <;> rfl

/-! ## The claims -/

/-- Claim C1: the review decision handling is a total function of the
decision and the remaining fix budget: APPROVE or EXCELLENT completes
the job, BLOCK fails it, IMPROVE with `autoFixCount k < 2` moves it to
`fixing` with the counter set to exactly `k + 1`, and at `k = 2` a
further IMPROVE fails the job and never yields `fixing`; every pair
maps to exactly one of these next states. -/
theorem review_decision_gate_total : ∀ (job : Job) (r : ReviewResult),
    ((r.decision = .APPROVE ∨ r.decision = .EXCELLENT) →
        (Orch.handleReviewDecision job r).job.status = .completed)
    ∧ (r.decision = .BLOCK → (Orch.handleReviewDecision job r).job.status = .failed)
    ∧ (r.decision = .IMPROVE → job.autoFixCount.getD 0 < MAX_AUTO_FIXES →
        (Orch.handleReviewDecision job r).job.status = .fixing
        ∧ (Orch.handleReviewDecision job r).job.autoFixCount
            = some (job.autoFixCount.getD 0 + 1))
    ∧ (r.decision = .IMPROVE → job.autoFixCount.getD 0 = MAX_AUTO_FIXES →
        (Orch.handleReviewDecision job r).job.status = .failed
        ∧ ¬ (Orch.handleReviewDecision job r).job.status = .fixing)
    ∧ ((Orch.handleReviewDecision job r).job.status = .completed
       ∨ (Orch.handleReviewDecision job r).job.status = .failed
       ∨ (Orch.handleReviewDecision job r).job.status = .fixing) := by
  intro job r
  cases hd : r.decision with
  | APPROVE => simp [Orch.handleReviewDecision, hd]
  | EXCELLENT => simp [Orch.handleReviewDecision, hd]
  | BLOCK => simp [Orch.handleReviewDecision, hd]
  | IMPROVE =>
      refine ⟨by simp [hd], by simp [hd], ?_, ?_, ?_⟩
      · intro _ hlt
        simp [Orch.handleReviewDecision, hd, hlt]
      · intro _ heq
        have hnlt : ¬ (job.autoFixCount.getD 0 < MAX_AUTO_FIXES) := by omega
        simp [Orch.handleReviewDecision, hd, hnlt]
      · by_cases hlt : job.autoFixCount.getD 0 < MAX_AUTO_FIXES <;>
          simp [Orch.handleReviewDecision, hd, hlt]

/-- Claim C2: starting from `startJob` (which resets `autoFixCount` to
0), no sequence of orchestrator operations ever pushes `autoFixCount`
beyond the configured maximum of 2; and once the budget is exhausted an
IMPROVE decision moves the job to the terminal failed state and writes
no fix prompt to the session. -/
theorem autoFix_budget_invariant : ∀ (job : Job) (cwd : String) (avail : Bool)
    (events : List Orch.OrchEvent) (n : Nat),
    (Orch.runEvents (Orch.startJob job cwd avail) (events.take n)).autoFixCount.getD 0
        ≤ MAX_AUTO_FIXES
    ∧ ∀ (j : Job) (r : ReviewResult),
        MAX_AUTO_FIXES ≤ j.autoFixCount.getD 0 → r.decision = .IMPROVE →
        (Orch.handleReviewDecision j r).job.status = .failed
        ∧ (Orch.handleReviewDecision j r).ptyWrites = [] := by
  intro job cwd avail events n
  constructor
  · exact runEvents_count_le _ _ (by simp [startJob_count])
  · intro j r hle hd
    have hnlt : ¬ (j.autoFixCount.getD 0 < MAX_AUTO_FIXES) := by omega
    simp [Orch.handleReviewDecision, hd, hnlt]

/-- Counterexample to claim C3: on a Verify-phase timeout the job does
move to `failed`, but no timeout-labeled reason is attached to the job
record — the resulting record is the input job with only its status
changed, its description still the original "Test job" (the `catch`
block calls `updateJobStatus(jobId, 'failed')` with no updates and only
logs the error to the console). -/
theorem verify_timeout_no_reason_cex :
    (Orch.advanceLoop jobEx envVerifyLate).job.status = .failed
    ∧ (Orch.advanceLoop jobEx envVerifyLate).job = { jobEx with status := .failed }
    ∧ jobEx.description = "Test job" := by
  refine ⟨rfl, ?_, rfl⟩
  rfl

/-- Claim C3 as amended: whenever one of the bounded phases Verify,
Snapshot or Review times out during `advanceLoop`, the job transitions
to the terminal failed state; the timeout rejection itself carries a
reason mentioning "timed out" (for Verify,
"Verification timed out after 600000ms"), but that reason is only
logged, not attached to the job record — the job's description is left
unchanged (on a Verify timeout the whole record is unchanged except the
status). -/
theorem phase_timeout_fails_without_reason (job : Job) (env : AdvanceEnv)
    (hrun : job.status = .running ∨ job.status = .fixing) :
    (env.verify = .timesOut →
        (Orch.advanceLoop job env).job = { job with status := .failed })
    ∧ (∀ v, env.verify = .completes v → env.snap = .timesOut →
        (Orch.advanceLoop job env).job.status = .failed
        ∧ (Orch.advanceLoop job env).job.description = job.description)
    ∧ (∀ v s, env.verify = .completes v → env.snap = .completes s →
        s.success = true → jsTruthyStr s.snapshotId = true →
        env.hasKey = true → env.review = .timesOut →
        (Orch.advanceLoop job env).job.status = .failed
        ∧ (Orch.advanceLoop job env).job.description = job.description)
    ∧ (∃ a b, withTimeout (Timed.timesOut : Timed VerifyRes) TIMEOUT_VERIFY "Verification"
        = .error (a ++ "timed out" ++ b)) := by
  refine ⟨?_, ?_, ?_, ⟨"Verification ", " after 600000ms", rfl⟩⟩
  · intro hv
    unfold Orch.advanceLoop
    rw [if_pos hrun, hv]
    simp [withTimeout]
  · intro v hv hs
    unfold Orch.advanceLoop
    rw [if_pos hrun, hv, hs]
    simp [withTimeout, pushHistory]
    split <;> simp
  · intro v s hv hs hsucc hid hk hrv
    unfold Orch.advanceLoop
    rw [if_pos hrun, hv, hs, hrv]
    simp [withTimeout, hsucc, hid, hk, pushHistory]
    split <;> simp

/-- Witness for the amended claim C3, at the concrete job `jobEx` and
the round `envVerifyLate` whose Verify phase times out. -/
theorem phase_timeout_fails_without_reason_witness :
    (envVerifyLate.verify = .timesOut →
        (Orch.advanceLoop jobEx envVerifyLate).job = { jobEx with status := .failed })
    ∧ (∀ v, envVerifyLate.verify = .completes v → envVerifyLate.snap = .timesOut →
        (Orch.advanceLoop jobEx envVerifyLate).job.status = .failed
        ∧ (Orch.advanceLoop jobEx envVerifyLate).job.description = jobEx.description)
    ∧ (∀ v s, envVerifyLate.verify = .completes v → envVerifyLate.snap = .completes s →
        s.success = true → jsTruthyStr s.snapshotId = true →
        envVerifyLate.hasKey = true → envVerifyLate.review = .timesOut →
        (Orch.advanceLoop jobEx envVerifyLate).job.status = .failed
        ∧ (Orch.advanceLoop jobEx envVerifyLate).job.description = jobEx.description)
    ∧ (∃ a b, withTimeout (Timed.timesOut : Timed VerifyRes) TIMEOUT_VERIFY "Verification"
        = .error (a ++ "timed out" ++ b)) :=
  phase_timeout_fails_without_reason jobEx envVerifyLate (Or.inl rfl)

/-- Claim C4: with no reviewer credential configured, a run of the
advancement loop whose snapshot succeeds always ends in
`waiting_approval` with `latestSnapshotId` set to the snapshot's id,
and the `reviewing` state is never entered. -/
theorem no_reviewer_waiting_approval (job : Job) (env : AdvanceEnv)
    (v : VerifyRes) (s : SnapRes)
    (hrun : job.status = .running ∨ job.status = .fixing)
    (hk : env.hasKey = false)
    (hv : env.verify = .completes v)
    (hs : env.snap = .completes s)
    (hsucc : s.success = true)
    (hid : jsTruthyStr s.snapshotId = true) :
    (Orch.advanceLoop job env).job.status = .waiting_approval
    ∧ (Orch.advanceLoop job env).job.latestSnapshotId = s.snapshotId
    ∧ JobStatus.reviewing ∉ (Orch.advanceLoop job env).statusTrace := by
  unfold Orch.advanceLoop
  rw [if_pos hrun, hv, hs]
  simp [withTimeout, hsucc, hid, hk]

/-- Witness for claim C4, at the concrete job `jobEx` and the round
`envNoKey` (no reviewer key, snapshot id "S1"). -/
theorem no_reviewer_waiting_approval_witness :
    (Orch.advanceLoop jobEx envNoKey).job.status = .waiting_approval
    ∧ (Orch.advanceLoop jobEx envNoKey).job.latestSnapshotId = sOk.snapshotId
    ∧ JobStatus.reviewing ∉ (Orch.advanceLoop jobEx envNoKey).statusTrace :=
  no_reviewer_waiting_approval jobEx envNoKey vOk sOk (Or.inl rfl) rfl rfl rfl rfl (by decide)

/-- Claim C5: whatever the Verify phase returned, a Snapshot phase that
returns failure (or no snapshot id) moves the job to the terminal
failed state with the snapshot failure reason recorded in the job's
description. -/
theorem snapshot_failure_fails (job : Job) (env : AdvanceEnv) (v : VerifyRes) (s : SnapRes)
    (hrun : job.status = .running ∨ job.status = .fixing)
    (hv : env.verify = .completes v)
    (hs : env.snap = .completes s)
    (hfail : s.success = false ∨ jsTruthyStr s.snapshotId = false) :
    (Orch.advanceLoop job env).job.status = .failed
    ∧ (Orch.advanceLoop job env).job.description
        = "Snapshot failed: " ++ jsShowOptStr s.error := by
  unfold Orch.advanceLoop
  rw [if_pos hrun, hv, hs]
  have hcond : (!s.success || !jsTruthyStr s.snapshotId) = true := by
    rcases hfail with h | h <;> simp [h]
  simp [withTimeout, hcond]

/-- Witness for claim C5, at the concrete job `jobEx` and the round
`envSnapFail` whose snapshot fails (the Verify phase succeeded). -/
theorem snapshot_failure_fails_witness :
    (Orch.advanceLoop jobEx envSnapFail).job.status = .failed
    ∧ (Orch.advanceLoop jobEx envSnapFail).job.description
        = "Snapshot failed: " ++ jsShowOptStr sBad.error :=
  snapshot_failure_fails jobEx envSnapFail vOk sBad (Or.inl rfl) rfl rfl (Or.inl rfl)

end Natsuki

namespace Natsuki

/-! ## Idle-detection lemmas -/

theorem fireDue_none (s : IdleState) (now : Nat) (hf : s.timerFireAt = Option.none) :
    fireDue s now = s := by
  unfold fireDue
  rw [hf]

theorem fireDue_early (s : IdleState) (now f : Nat) (hf : s.timerFireAt = some f)
    (hlt : now < f) : fireDue s now = s := by
  unfold fireDue
  rw [hf]
  exact if_neg (by omega)

theorem fireDue_due (s : IdleState) (now f : Nat) (hf : s.timerFireAt = some f)
    (hle : f ≤ now) :
    fireDue s now = { s with timerFireAt := Option.none, fires := s.fires ++ [f] } := by
  unfold fireDue
  rw [hf]
  exact if_pos hle

theorem fireDue_not_due (s : IdleState) (now : Nat)
    (h : ∀ f, s.timerFireAt = some f → now < f) : fireDue s now = s := by
  cases hf : s.timerFireAt with
  | none => exact fireDue_none s now hf
  | some f => exact fireDue_early s now f hf (h f hf)

theorem onChunk_quiet (s : IdleState) (t : Nat) (hcb : s.callbackSet = true)
    (h : ∀ f, s.timerFireAt = some f → t < f) :
    onChunk s t = { s with timerFireAt := some (t + IDLE_THRESHOLD_MS) } := by
  unfold onChunk
  rw [fireDue_not_due s t h]
  unfold resetIdleTimer
  rw [if_pos hcb]

theorem processChunks_quiet (ts : List Nat) (t0 : Nat) (s : IdleState)
    (hcb : s.callbackSet = true)
    (hpend : ∀ f, s.timerFireAt = some f → t0 < f)
    (hg : gapsOk (t0 :: ts) = true) :
    (processChunks s (t0 :: ts)).fires = s.fires
    ∧ (processChunks s (t0 :: ts)).timerFireAt = some (lastChunk t0 ts + IDLE_THRESHOLD_MS)
    ∧ (processChunks s (t0 :: ts)).callbackSet = true := by
  induction ts generalizing t0 s with
  | nil =>
      rw [show processChunks s [t0] = onChunk s t0 from rfl, onChunk_quiet s t0 hcb hpend]
      exact ⟨rfl, rfl, hcb⟩
  | cons t1 rest ih =>
      have hg' : gapsOk (t1 :: rest) = true := by
        simp [gapsOk] at hg
        exact hg.2
      have h01 : t1 < t0 + IDLE_THRESHOLD_MS := by
        simp [gapsOk] at hg
        exact hg.1.2
      have hstep : processChunks s (t0 :: t1 :: rest)
          = processChunks (onChunk s t0) (t1 :: rest) := rfl
      rw [hstep, onChunk_quiet s t0 hcb hpend]
      have := ih t1 { s with timerFireAt := some (t0 + IDLE_THRESHOLD_MS) } hcb
        (by intro f hf; simp at hf; omega) hg'
      simpa [lastChunk] using this

/-- Claim C6: idle detection is debounced: for a sequence of output
chunks whose consecutive arrivals are under the 5000 ms quiescence
threshold apart, the registered idle callback never fires during the
sequence; the pending timer is set for one full threshold past the last
chunk, firing there invokes the callback exactly once, and afterwards
no timer is pending and nothing more fires until a new chunk arrives. -/
theorem idle_detection_debounced (t0 : Nat) (ts : List Nat)
    (hg : gapsOk (t0 :: ts) = true) :
    (idleRun t0 ts).fires = []
    ∧ (idleRun t0 ts).timerFireAt = some (lastChunk t0 ts + IDLE_THRESHOLD_MS)
    ∧ (fireDue (idleRun t0 ts) (lastChunk t0 ts + IDLE_THRESHOLD_MS)).fires
        = [lastChunk t0 ts + IDLE_THRESHOLD_MS]
    ∧ (fireDue (idleRun t0 ts) (lastChunk t0 ts + IDLE_THRESHOLD_MS)).timerFireAt
        = Option.none
    ∧ ∀ t, fireDue (fireDue (idleRun t0 ts) (lastChunk t0 ts + IDLE_THRESHOLD_MS)) t
        = fireDue (idleRun t0 ts) (lastChunk t0 ts + IDLE_THRESHOLD_MS) := by
  have h := processChunks_quiet ts t0 (setIdleCallback idleStart true) rfl
    (by intro f hf; simp [setIdleCallback, idleStart] at hf) hg
  have hfires : (idleRun t0 ts).fires = [] := by
    simpa [idleRun, setIdleCallback, idleStart] using h.1
  have htimer : (idleRun t0 ts).timerFireAt
      = some (lastChunk t0 ts + IDLE_THRESHOLD_MS) := h.2.1
  have hfire := fireDue_due (idleRun t0 ts) (lastChunk t0 ts + IDLE_THRESHOLD_MS)
    (lastChunk t0 ts + IDLE_THRESHOLD_MS) htimer le_rfl
  refine ⟨hfires, htimer, ?_, ?_, ?_⟩
  · rw [hfire]
    simp [hfires]
  · rw [hfire]
  · intro t
    rw [hfire]
    exact fireDue_none _ t rfl

/-- Witness for claim C6, with chunks at 0 ms, 1000 ms and 2000 ms:
nothing fires during the burst and the single idle fire happens at
7000 ms. -/
theorem idle_detection_debounced_witness :
    (idleRun 0 [1000, 2000]).fires = []
    ∧ (idleRun 0 [1000, 2000]).timerFireAt = some (lastChunk 0 [1000, 2000] + IDLE_THRESHOLD_MS)
    ∧ (fireDue (idleRun 0 [1000, 2000]) (lastChunk 0 [1000, 2000] + IDLE_THRESHOLD_MS)).fires
        = [lastChunk 0 [1000, 2000] + IDLE_THRESHOLD_MS]
    ∧ (fireDue (idleRun 0 [1000, 2000]) (lastChunk 0 [1000, 2000] + IDLE_THRESHOLD_MS)).timerFireAt
        = Option.none
    ∧ ∀ t, fireDue (fireDue (idleRun 0 [1000, 2000]) (lastChunk 0 [1000, 2000] + IDLE_THRESHOLD_MS)) t
        = fireDue (idleRun 0 [1000, 2000]) (lastChunk 0 [1000, 2000] + IDLE_THRESHOLD_MS) :=
  idle_detection_debounced 0 [1000, 2000] (by decide)

end Natsuki

namespace Natsuki

/-! ## Ring-buffer lemmas -/

theorem lastN_eq_reverse_take {α : Type} (n : Nat) (l : List α) :
    lastN n l = (l.reverse.take n).reverse := by
  unfold lastN
  rw [List.take_reverse, List.reverse_reverse]

theorem lastN_length_le {α : Type} (n : Nat) (l : List α) : (lastN n l).length ≤ n := by
  unfold lastN
  simp
  omega

theorem mem_of_mem_lastN {α : Type} {n : Nat} {l : List α} {a : α}
    (h : a ∈ lastN n l) : a ∈ l :=
  List.mem_of_mem_drop h

theorem take_append_take (n : Nat) {α : Type} (x y : List α) :
    List.take n (x ++ List.take n y) = List.take n (x ++ y) := by
  rw [List.take_append_eq_append_take, @List.take_append_eq_append_take _ x y n,
    List.take_take]
  have h : (n - x.length) ⊓ n = n - x.length := Nat.min_eq_left (Nat.sub_le n x.length)
  rw [h]

theorem lastN_append_lastN (n : Nat) {α : Type} (a b : List α) :
    lastN n (lastN n a ++ b) = lastN n (a ++ b) := by
  rw [lastN_eq_reverse_take, lastN_eq_reverse_take n (a ++ b)]
  rw [List.reverse_append, List.reverse_append]
  rw [lastN_eq_reverse_take, List.reverse_reverse]
  rw [take_append_take]

theorem appendLog_eq_lastN (logs : List String) (text : String) :
    appendLog logs text
      = lastN MAX_LOG_LINES (logs ++ (splitLines text).filter (fun l => nonBlank l)) := by
  unfold appendLog lastN
  dsimp only
  split
  · rfl
  · next h =>
      have h0 : (logs ++ (splitLines text).filter (fun l => nonBlank l)).length
          - MAX_LOG_LINES = 0 := by omega
      rw [h0, List.drop_zero]

theorem foldl_appendLog (chunks : List String) (s : List String)
    (hs : s.length ≤ MAX_LOG_LINES) :
    chunks.foldl appendLog s = lastN MAX_LOG_LINES (s ++ allKeptLines chunks) := by
  induction chunks generalizing s with
  | nil =>
      simp [allKeptLines, lastN, Nat.sub_eq_zero_of_le hs]
  | cons c rest ih =>
      rw [List.foldl_cons, appendLog_eq_lastN]
      rw [ih _ (lastN_length_le _ _)]
      rw [lastN_append_lastN]
      simp [allKeptLines, List.append_assoc]

/-- Claim C8: processing any sequence of output chunks from an empty
buffer leaves exactly the most recent 50 non-empty lines in arrival
order: the buffer equals the last-50 suffix of all kept lines, holds at
most 50 lines, and every stored line is non-blank. -/
theorem log_buffer_last_fifty (chunks : List String) :
    chunks.foldl appendLog [] = lastN MAX_LOG_LINES (allKeptLines chunks)
    ∧ (chunks.foldl appendLog []).length ≤ MAX_LOG_LINES
    ∧ ∀ l ∈ chunks.foldl appendLog [], nonBlank l = true := by
  have h := foldl_appendLog chunks [] (by simp [MAX_LOG_LINES])
  simp only [List.nil_append] at h
  refine ⟨h, ?_, ?_⟩
  · rw [h]
    exact lastN_length_le _ _
  · intro l hl
    rw [h] at hl
    have hl2 : l ∈ allKeptLines chunks := mem_of_mem_lastN hl
    unfold allKeptLines at hl2
    rw [List.mem_flatten] at hl2
    obtain ⟨ls, hls, hmem⟩ := hl2
    rw [List.mem_map] at hls
    obtain ⟨c, _, rfl⟩ := hls
    exact (List.mem_filter.mp hmem).2

/-! ## Verify allow-list lemmas -/

theorem lookupProfile_not_own (p : String)
    (h1 : p ≠ "lint") (h2 : p ≠ "build") (h3 : p ≠ "typecheck") (h4 : p ≠ "test") :
    lookupProfile p
      = if OBJECT_PROTOTYPE_KEYS.contains p then JsMember.inheritedMember
        else JsMember.absent := by
  have e1 : ("lint" == p) = false := beq_eq_false_iff_ne.mpr (Ne.symm h1)
  have e2 : ("build" == p) = false := beq_eq_false_iff_ne.mpr (Ne.symm h2)
  have e3 : ("typecheck" == p) = false := beq_eq_false_iff_ne.mpr (Ne.symm h3)
  have e4 : ("test" == p) = false := beq_eq_false_iff_ne.mpr (Ne.symm h4)
  simp [lookupProfile, VERIFY_PROFILES, List.find?, e1, e2, e3, e4]

/-- Counterexample to claim C7: "toString" is not one of the
allow-listed verify profiles, yet `runVerify` does not return the
fail-closed failure result for it: `VERIFY_PROFILES["toString"]` finds
the truthy function inherited from `Object.prototype`, the
`if (!commandStr)` guard does not fire, and the call rejects with a
`TypeError` thrown at `commandStr.split(' ')`
(snapshot-manager.ts line 62) — no `success = false` result with an
error message is ever produced (though no command is executed). -/
theorem verify_prototype_key_throws_cex :
    ("toString" ≠ "lint" ∧ "toString" ≠ "build" ∧ "toString" ≠ "typecheck"
      ∧ "toString" ≠ "test")
    ∧ (runVerify execOk "/ws" "toString").outcome
        = .error "TypeError: commandStr.split is not a function"
    ∧ (¬ ∃ r, (runVerify execOk "/ws" "toString").outcome = .ok r)
    ∧ (runVerify execOk "/ws" "toString").executedCommand = Option.none := by
  refine ⟨by decide, rfl, ?_, rfl⟩
  rintro ⟨r, hr⟩
  rw [show (runVerify execOk "/ws" "toString").outcome
      = .error "TypeError: commandStr.split is not a function" from rfl] at hr
  exact Except.noConfusion hr

/-- Claim C7 as amended: a `profileName` outside the fixed allow-list
(lint, build, typecheck, test) that is not the name of a member
inherited from `Object.prototype` makes `runVerify` fail closed — no
command is executed, `success` is false and the not-allowed error
message is returned; a `profileName` naming an inherited
`Object.prototype` member finds that truthy non-string member, passes
the `if (!commandStr)` guard and throws a `TypeError` at the
`commandStr.split(' ')` call — the call rejects instead of returning
the fail-closed result, though still no command is executed; an
allow-listed profile runs exactly its mapped command and reports
success exactly when the exit code is 0. -/
theorem verify_allowlist_fails_closed :
    ∀ (exec : String → String → CmdOut) (cwd p : String),
    ((p ≠ "lint" ∧ p ≠ "build" ∧ p ≠ "typecheck" ∧ p ≠ "test")
        ∧ OBJECT_PROTOTYPE_KEYS.contains p = false →
        (runVerify exec cwd p).executedCommand = Option.none
        ∧ (runVerify exec cwd p).outcome
            = .ok { success := false, exitCode := -1, stdoutTail := "", stderrTail := ""
                    error := some ("Profile \x27" ++ p ++ "\x27 not allowed/found.") })
    ∧ ((p ≠ "lint" ∧ p ≠ "build" ∧ p ≠ "typecheck" ∧ p ≠ "test")
        ∧ OBJECT_PROTOTYPE_KEYS.contains p = true →
        (runVerify exec cwd p).executedCommand = Option.none
        ∧ (runVerify exec cwd p).outcome
            = .error "TypeError: commandStr.split is not a function")
    ∧ (∀ cmd, lookupProfile p = .str cmd →
        (runVerify exec cwd p).executedCommand = some cmd
        ∧ ∃ r, (runVerify exec cwd p).outcome = .ok r
            ∧ (r.success = true ↔ (exec cmd cwd).exitCode = 0)) := by
  intro exec cwd p
  refine ⟨?_, ?_, ?_⟩
  · rintro ⟨⟨h1, h2, h3, h4⟩, hproto⟩
    unfold runVerify
    rw [lookupProfile_not_own p h1 h2 h3 h4, hproto]
    exact ⟨rfl, rfl⟩
  · rintro ⟨⟨h1, h2, h3, h4⟩, hproto⟩
    unfold runVerify
    rw [lookupProfile_not_own p h1 h2 h3 h4, hproto]
    exact ⟨rfl, rfl⟩
  · intro cmd hcmd
    unfold runVerify
    rw [hcmd]
    refine ⟨rfl, ⟨_, rfl, ?_⟩⟩
    simp

/-- Counterexample to claim C9: when the cheap (tier 1) model already
returns APPROVE, the tiered reviewer does skip tier 2, but it does not
return the tier-1 result itself: the returned result's summary is
prefixed with "[Tier 1] ", so it differs from the tier-1 result. -/
theorem tiered_prefixes_summary_cex :
    (tieredReview (.ok rvApprove) (.ok rvApprove)).tier2Consulted = false
    ∧ ¬ (tieredReview (.ok rvApprove) (.ok rvApprove)).result = .ok rvApprove := by
  constructor
  · rfl
  · intro h
    simp [tieredReview, rvApprove] at h

/-- Claim C9 as amended: the tiered reviewer consults the cheap model
first; if and only if that result's decision is APPROVE or EXCELLENT it
returns the tier-1 result with its summary prefixed by "[Tier 1] ",
without consulting the stronger model; otherwise it escalates to tier 2
and returns that model's result — with its summary prefixed by
"[Tier 2 (was <decision>)] " when tier 1 returned a non-approving
decision, and unchanged when tier 1 errored. -/
theorem tiered_review_escalation :
    ∀ (t1 t2 : Except String ReviewResult),
    (∀ r1, t1 = .ok r1 → (r1.decision = .APPROVE ∨ r1.decision = .EXCELLENT) →
        tieredReview t1 t2
          = { result := .ok { r1 with summary := "[Tier 1] " ++ r1.summary }
              tier2Consulted := false })
    ∧ (∀ r1, t1 = .ok r1 → r1.decision ≠ .APPROVE → r1.decision ≠ .EXCELLENT →
        (tieredReview t1 t2).tier2Consulted = true
        ∧ (∀ r2, t2 = .ok r2 → (tieredReview t1 t2).result
            = .ok { r2 with
                summary := "[Tier 2 (was " ++ r1.decision.str ++ ")] " ++ r2.summary })
        ∧ (∀ e, t2 = .error e → (tieredReview t1 t2).result = .error e))
    ∧ (∀ e1, t1 = .error e1 →
        (tieredReview t1 t2).tier2Consulted = true ∧ (tieredReview t1 t2).result = t2) := by
  intro t1 t2
  refine ⟨?_, ?_, ?_⟩
  · rintro r1 rfl hd
    simp [tieredReview, hd]
  · rintro r1 rfl hna hne
    have hcond : ¬ (r1.decision = .APPROVE ∨ r1.decision = .EXCELLENT) := by
      rintro (h | h) <;> contradiction
    cases t2 with
    | ok r2 =>
        refine ⟨by simp [tieredReview, hcond], ?_, ?_⟩
        · rintro r2x hx
          cases hx
          simp [tieredReview, hcond]
        · rintro e hx
          cases hx
    | error e =>
        refine ⟨by simp [tieredReview, hcond], ?_, ?_⟩
        · rintro r2x hx
          cases hx
        · rintro ex hx
          cases hx
          simp [tieredReview, hcond]
  · rintro e1 rfl
    exact ⟨rfl, rfl⟩

/-- Claim C10: the two orchestrator variants in the source implement
the same review-decision handling: on every job state and review
result, `handleReviewDecision` of src/electron/orchestrator.ts and of
src/unnamed/part_006 produce the same next status, the same
`autoFixCount` update, the same failure reason strings and the same
composed fix prompt. -/
theorem orchestrator_variants_agree : ∀ (job : Job) (r : ReviewResult),
    Orch.handleReviewDecision job r = Part006.handleReviewDecision job r := by
  intro job r
  rfl

end Natsuki
